import Mathlib

/-! copy_page_benchmark: timing models and benchmark runner

A shallow embedding of `timing.h` (the four timing models selected by the
preprocessor) and of `main.c` (the loop over the `tests` table).

Machine integers are mathematical integers reduced explicitly: unsigned
64-bit arithmetic is arithmetic modulo `2 ^ 64`, signed arithmetic wraps in
two's complement (what the supported targets do), and the model is LP64
(`time_t` and `long` are 64 bits wide, `int` is 32 bits wide).
-/

namespace CopyPageBenchmark

/-! ## Machine integers -/

/-- Conversion of an integer value to `unsigned long long`: reduction modulo `2 ^ 64`. -/
def to_ull (z : Int) : Nat := (z % 2 ^ 64).toNat

/-- Conversion of an integer value to `long long`: 64-bit two's complement wrap. -/
def to_ll (z : Int) : Int := (z + 2 ^ 63) % 2 ^ 64 - 2 ^ 63

/-- Conversion of an integer value to `int`: 32-bit two's complement wrap. -/
def to_int (z : Int) : Int := (z + 2 ^ 31) % 2 ^ 32 - 2 ^ 31

/-! ## `#ifdef AARCH64_TIMING` -/

namespace AARCH64

/-- The C declaration is `typedef unsigned long long benchmark_time;`. -/
abbrev benchmark_time := Nat

/-- The two system registers `enable_count_register` reads and writes,
each held as its 64-bit pattern. -/
structure SysRegs where
  PMCR_EL0 : Nat
  PMCNTENSET_EL0 : Nat
deriving DecidableEq, Repr

/-- Embedding of `enable_count_register`. The body is compiled only under
`AARCH64_PMU_TIMING`. The variable `a` is a `long long`; `mrs` loads the
register pattern into it and `msr` stores its pattern back. The constants
`1 << 0` and `1 << 31` are computed in `int` and then converted to
`long long` for the `|=`, which works on the 64-bit patterns. -/
def enable_count_register (AARCH64_PMU_TIMING : Bool) (r : SysRegs) : SysRegs :=
  if AARCH64_PMU_TIMING then
    -- asm("mrs %0, PMCR_EL0" : "=r"(a));
    let a : Int := to_ll r.PMCR_EL0
    -- a |= 1 << 0;
    let a : Int := to_ll (to_ull a ||| to_ull (to_int (1 * 2 ^ 0)) : Nat)
    -- asm("msr PMCR_EL0, %0" : : "r"(a));
    let r : SysRegs := { r with PMCR_EL0 := to_ull a }
    -- asm("mrs %0, PMCNTENSET_EL0" : "=r"(a));
    let a : Int := to_ll r.PMCNTENSET_EL0
    -- a |= 1 << 31;
    let a : Int := to_ll (to_ull a ||| to_ull (to_int (1 * 2 ^ 31)) : Nat)
    -- asm("msr PMCNTENSET_EL0, %0": : "r"(a));
    { r with PMCNTENSET_EL0 := to_ull a }
  else r

/-- Embedding of `time_spent`: `benchmark_end_time-benchmark_start_time` in
`unsigned long long`. -/
def time_spent (benchmark_start_time benchmark_end_time : benchmark_time) : Nat :=
  to_ull ((benchmark_end_time : Int) - (benchmark_start_time : Int))

/-- The text `print_time` writes: `printf("total time = %llu.\n", time_spent())`. -/
def print_time (benchmark_start_time benchmark_end_time : benchmark_time) : String :=
  "total time = " ++ Nat.repr (time_spent benchmark_start_time benchmark_end_time) ++ ".\n"

end AARCH64

/-! ## `#ifdef OCTEON_TIMING` -/

namespace OCTEON

/-- The C declaration is `typedef unsigned long long benchmark_time;`. -/
abbrev benchmark_time := Nat

/-- Embedding of `enable_count_register`, whose body is empty. -/
def enable_count_register (r : AARCH64.SysRegs) : AARCH64.SysRegs := r

/-- Embedding of `time_spent`: `benchmark_end_time-benchmark_start_time` in
`unsigned long long`. -/
def time_spent (benchmark_start_time benchmark_end_time : benchmark_time) : Nat :=
  to_ull ((benchmark_end_time : Int) - (benchmark_start_time : Int))

/-- The text `print_time` writes: `printf("total time = %llu.\n", time_spent())`. -/
def print_time (benchmark_start_time benchmark_end_time : benchmark_time) : String :=
  "total time = " ++ Nat.repr (time_spent benchmark_start_time benchmark_end_time) ++ ".\n"

end OCTEON

/-! ## `#ifdef LINUX_TIMING` -/

namespace LINUX

/-- The C type is `struct timespec`; both fields are signed 64-bit integers. -/
structure benchmark_time where
  tv_sec : Int
  tv_nsec : Int
deriving DecidableEq, Repr

/-- The constant from `#define BILLION 1000000000LL`. -/
def BILLION : Int := 1000000000

/-- Embedding of `enable_count_register`, whose body is empty. -/
def enable_count_register (r : AARCH64.SysRegs) : AARCH64.SysRegs := r

/-- Embedding of `time_spent`. The expression
`BILLION * (end.tv_sec - start.tv_sec) + end.tv_nsec - start.tv_nsec`
is evaluated left to right in `long long` and the result is converted to
`unsigned long long` by the assignment to `diff`. -/
def time_spent (benchmark_start_time benchmark_end_time : benchmark_time) : Nat :=
  let dsec : Int := to_ll (benchmark_end_time.tv_sec - benchmark_start_time.tv_sec)
  let prod : Int := to_ll (BILLION * dsec)
  let sum : Int := to_ll (prod + benchmark_end_time.tv_nsec)
  let diff : Int := to_ll (sum - benchmark_start_time.tv_nsec)
  to_ull diff

/-- The text `print_time` writes:
`printf("total time = %llu nanoseconds\n",time_spent())`. -/
def print_time (benchmark_start_time benchmark_end_time : benchmark_time) : String :=
  "total time = " ++ Nat.repr (time_spent benchmark_start_time benchmark_end_time)
    ++ " nanoseconds\n"

end LINUX

/-! ## `#ifdef X86_TIMING` -/

namespace X86

/-- The C type is `struct { unsigned hi; unsigned lo; }`; a value is
well formed when both halves are below `2 ^ 32`. -/
structure benchmark_time where
  hi : Nat
  lo : Nat
deriving DecidableEq, Repr

/-- Embedding of `enable_count_register`, whose body is empty. -/
def enable_count_register (r : AARCH64.SysRegs) : AARCH64.SysRegs := r

/-- Embedding of `convert_to_cycles`:
`(((unsigned long long)a.hi) << 32) | a.lo`. -/
def convert_to_cycles (a : benchmark_time) : Nat :=
  ((to_ull a.hi <<< 32) % 2 ^ 64) ||| to_ull a.lo

/-- Embedding of `time_spent`:
`convert_to_cycles(benchmark_end_time)-convert_to_cycles(benchmark_start_time)`. -/
def time_spent (benchmark_start_time benchmark_end_time : benchmark_time) : Nat :=
  to_ull ((convert_to_cycles benchmark_end_time : Int)
    - (convert_to_cycles benchmark_start_time : Int))

/-- The text `print_time` writes: `printf("total time = %llu.\n", time_spent())`. -/
def print_time (benchmark_start_time benchmark_end_time : benchmark_time) : String :=
  "total time = " ++ Nat.repr (time_spent benchmark_start_time benchmark_end_time) ++ ".\n"

end X86

/-! ## Selection of the timing model -/

/-- The timing model the preprocessor selects; exactly one is defined in a
build (`main.c` as committed has `#define AARCH64_TIMING`). -/
inductive timing_model
  | AARCH64_TIMING
  | OCTEON_TIMING
  | LINUX_TIMING
  | X86_TIMING
deriving DecidableEq, Repr

/-- The type `benchmark_time` of the selected model. -/
def benchmark_time : timing_model → Type
  | .AARCH64_TIMING => AARCH64.benchmark_time
  | .OCTEON_TIMING => OCTEON.benchmark_time
  | .LINUX_TIMING => LINUX.benchmark_time
  | .X86_TIMING => X86.benchmark_time

/-- The value of a zero-initialised global of type `benchmark_time`. -/
def benchmark_time.zero : (m : timing_model) → benchmark_time m
  | .AARCH64_TIMING => (0 : Nat)
  | .OCTEON_TIMING => (0 : Nat)
  | .LINUX_TIMING => ({ tv_sec := 0, tv_nsec := 0 } : LINUX.benchmark_time)
  | .X86_TIMING => ({ hi := 0, lo := 0 } : X86.benchmark_time)

/-- The function `time_spent` of the selected model, applied to the two
globals `benchmark_start_time` and `benchmark_end_time`. -/
def time_spent : (m : timing_model) → benchmark_time m → benchmark_time m → Nat
  | .AARCH64_TIMING => AARCH64.time_spent
  | .OCTEON_TIMING => OCTEON.time_spent
  | .LINUX_TIMING => LINUX.time_spent
  | .X86_TIMING => X86.time_spent

/-- The text written by `print_time` of the selected model. -/
def print_time_text : (m : timing_model) → benchmark_time m → benchmark_time m → String
  | .AARCH64_TIMING => AARCH64.print_time
  | .OCTEON_TIMING => OCTEON.print_time
  | .LINUX_TIMING => LINUX.print_time
  | .X86_TIMING => X86.print_time

/-- The function `enable_count_register` of the selected model; the flag
`AARCH64_PMU_TIMING` matters to the first model only. -/
def enable_count_register (m : timing_model) (AARCH64_PMU_TIMING : Bool)
    (r : AARCH64.SysRegs) : AARCH64.SysRegs :=
  match m with
  | .AARCH64_TIMING => AARCH64.enable_count_register AARCH64_PMU_TIMING r
  | .OCTEON_TIMING => OCTEON.enable_count_register r
  | .LINUX_TIMING => LINUX.enable_count_register r
  | .X86_TIMING => X86.enable_count_register r

/-! ## The runner (`main.c`) -/

/-- The two pointer variables of `main`. -/
inductive Ptr
  | pagesrc
  | pagedst
deriving DecidableEq, Repr

/-- What a run does, in program order: the library calls of `main`, the
calls into the timing model and the calls of the test functions. -/
inductive Action
  | posix_memalign (p : Ptr) (alignment size : Nat)
  | memset (p : Ptr) (c : Nat) (n : Nat)
  | enable_count_register
  | start_time
  | func (i : Nat) (dest src : Ptr) (src_bytes : List Nat)
  | stop_time
  | time_spent
  | printf (text : String)
deriving DecidableEq, Repr

/-- One entry of the table `tests`: `{ const char *name; void (*func)(void *dest, void *src); }`.
A null pointer is `none`. A test function is given the contents of the
pages behind `dest` and `src` and leaves new contents in them. -/
structure test where
  name : Option String
  func : Option (List Nat → List Nat → List Nat × List Nat)

/-- The process state `main` works on. -/
structure World (m : timing_model) where
  /-- Contents of the block `pagesrc` points to (bytes); `none` while the
  pointer is `NULL`. -/
  pagesrc : Option (List Nat)
  /-- Contents of the block `pagedst` points to (bytes); `none` while the
  pointer is `NULL`. -/
  pagedst : Option (List Nat)
  benchmark_start_time : benchmark_time m
  benchmark_end_time : benchmark_time m
  /-- How many times the time source has been read so far. -/
  reads : Nat
  /-- Everything written to standard output so far. -/
  stdout : String
  /-- The actions performed so far, oldest first. -/
  log : List Action

/-- The state at process start: globals zeroed, both pointers `NULL`
(`void *pagesrc = NULL; void *pagedst = NULL;`), nothing written or logged. -/
def World.init (m : timing_model) : World m :=
  { pagesrc := none, pagedst := none,
    benchmark_start_time := benchmark_time.zero m,
    benchmark_end_time := benchmark_time.zero m,
    reads := 0, stdout := "", log := [] }

/-- The size of a pointer, `sizeof(void *)`, on LP64. -/
def sizeof_void_ptr : Nat := 8

/-- The alignments `posix_memalign` accepts: a power of two that is a
multiple of `sizeof(void *)`, which is to say a non-zero multiple `q` times
`sizeof(void *)` with `q` a power of two (`(q - 1) & q` is zero). -/
def valid_alignment (alignment : Nat) : Bool :=
  alignment % sizeof_void_ptr == 0 && alignment != 0 &&
    ((alignment / sizeof_void_ptr - 1) &&& (alignment / sizeof_void_ptr)) == 0

/-- The error code `EINVAL`. -/
def EINVAL : Nat := 22

/-- The error code `ENOMEM`. -/
def ENOMEM : Nat := 12

/-- Library call `posix_memalign (&p, alignment, size)`, with the state
after it and its return value. It fails with `EINVAL` on an alignment it
does not accept and with `ENOMEM` when the allocator has no memory for the
request (`out_of_memory p`); on failure `p` is left as it was. On success
it returns 0 and `p` points to a fresh block of `size` bytes with
unspecified contents `garbage`. -/
def posix_memalign {m : timing_model} (out_of_memory : Ptr → Bool) (garbage : Ptr → Nat → Nat)
    (p : Ptr) (alignment size : Nat) (w : World m) : World m × Nat :=
  let w := { w with log := w.log ++ [Action.posix_memalign p alignment size] }
  if !valid_alignment alignment then (w, EINVAL)
  else if out_of_memory p then (w, ENOMEM)
  else
    let block := (List.range size).map (fun k => garbage p k % 256)
    match p with
    | .pagesrc => ({ w with pagesrc := some block }, 0)
    | .pagedst => ({ w with pagedst := some block }, 0)

/-- Library call `memset (pagesrc, c, n)`: the first `n` bytes become
`(unsigned char) c`. Through a null pointer a write of `n > 0` bytes is a
fault (`none`). -/
def memset_pagesrc {m : timing_model} (c n : Nat) (w : World m) : Option (World m) :=
  match w.pagesrc with
  | none => if n = 0 then some { w with log := w.log ++ [Action.memset .pagesrc c n] } else none
  | some bytes =>
    some { w with pagesrc := some (List.replicate n (c % 256) ++ bytes.drop n),
                  log := w.log ++ [Action.memset .pagesrc c n] }

/-- Library call `printf` with the already formatted text. -/
def printf {m : timing_model} (text : String) (w : World m) : World m :=
  { w with stdout := w.stdout ++ text, log := w.log ++ [Action.printf text] }

/-- Embedding of `start_time`: the time source is read into the global
`benchmark_start_time`. The value of the `k`-th read since process start
is `clock k`. -/
def start_time {m : timing_model} (clock : Nat → benchmark_time m) (w : World m) : World m :=
  { w with benchmark_start_time := clock w.reads, reads := w.reads + 1,
           log := w.log ++ [Action.start_time] }

/-- Embedding of `stop_time`: the time source is read into the global
`benchmark_end_time`. -/
def stop_time {m : timing_model} (clock : Nat → benchmark_time m) (w : World m) : World m :=
  { w with benchmark_end_time := clock w.reads, reads := w.reads + 1,
           log := w.log ++ [Action.stop_time] }

/-- Embedding of `print_time`: it calls `time_spent ()` on the globals and
passes the result to `printf`. -/
def print_time {m : timing_model} (w : World m) : World m :=
  let w := { w with log := w.log ++ [Action.time_spent] }
  printf (print_time_text m w.benchmark_start_time w.benchmark_end_time) w

/-- The call `tests[i].func(pagedst, pagesrc)`. A test function works on
the pages behind both pointers; a call with a null pointer has no defined
result (`none`). -/
def call_func {m : timing_model} (i : Nat) (f : List Nat → List Nat → List Nat × List Nat)
    (w : World m) : Option (World m) :=
  match w.pagedst, w.pagesrc with
  | some dst, some src =>
    let r := f dst src
    some { w with pagedst := some r.1, pagesrc := some r.2,
                  log := w.log ++ [Action.func i .pagedst .pagesrc src] }
  | _, _ => none

/-- The body of the `for` loop of `main` for index `i`; `none` when the
process faults in it. -/
def loop_body {m : timing_model} (PAGE_SIZE : Nat) (clock : Nat → benchmark_time m)
    (i : Nat) (name : String) (f : List Nat → List Nat → List Nat × List Nat)
    (w : World m) : Option (World m) :=
  -- memset (pagesrc, i, PAGE_SIZE);
  match memset_pagesrc i PAGE_SIZE w with
  | none => none
  | some w =>
    -- start_time();
    let w := start_time clock w
    -- tests[i].func(pagedst, pagesrc);
    match call_func i f w with
    | none => none
    | some w =>
      -- stop_time();
      let w := stop_time clock w
      -- printf ("%s: ", tests[i].name);
      let w := printf (name ++ ": ") w
      -- print_time();
      let w := print_time w
      -- printf ("\n");
      some (printf "\n" w)

/-- The loop `for(i = 0; tests[i].name != NULL; i++)`, started at index `i`
with the entries `tests[i], tests[i+1], ...` as the list argument. Reading
past the end of the table or calling through a null pointer has no defined
result. -/
def main_loop {m : timing_model} (PAGE_SIZE : Nat) (clock : Nat → benchmark_time m) :
    List test → Nat → World m → Option (World m)
  | [], _, _ => none
  | t :: rest, i, w =>
    match t.name with
    | none => some w
    | some name =>
      match t.func with
      | none => none
      | some f =>
        match loop_body PAGE_SIZE clock i name f w with
        | none => none
        | some w => main_loop PAGE_SIZE clock rest (i + 1) w

/-- Embedding of `main`: the final state and the exit code, or `none`
when the process faults. `PAGE_SIZE` comes from `asm.h` and the table
`tests` from `test.def`. The return values of the two `posix_memalign`
calls are not looked at. -/
def main (m : timing_model) (PAGE_SIZE : Nat) (out_of_memory : Ptr → Bool)
    (garbage : Ptr → Nat → Nat) (clock : Nat → benchmark_time m) (tests : List test) :
    Option (World m × Int) :=
  let w := World.init m
  -- posix_memalign (&pagesrc, PAGE_SIZE, PAGE_SIZE);
  let w := (posix_memalign out_of_memory garbage .pagesrc PAGE_SIZE PAGE_SIZE w).1
  -- posix_memalign (&pagedst, PAGE_SIZE, PAGE_SIZE);
  let w := (posix_memalign out_of_memory garbage .pagedst PAGE_SIZE PAGE_SIZE w).1
  match main_loop PAGE_SIZE clock tests 0 w with
  | none => none
  | some w => some (w, 0)

/-- A table built the way `main.c` builds it: one entry per name of
`test.def`, then the entry `{ NULL, NULL }`. -/
def registry (cases : List (String × (List Nat → List Nat → List Nat × List Nat))) : List test :=
  cases.map (fun c => { name := some c.1, func := some c.2 }) ++ [{ name := none, func := none }]

/-! ## Notions the specification uses -/

/-- A wall-clock point is normalised when `0 <= tv_nsec < 10^9`. -/
def LINUX.normalised (t : LINUX.benchmark_time) : Prop :=
  0 ≤ t.tv_nsec ∧ t.tv_nsec < 10 ^ 9

/-- Time order of wall-clock points: lexicographic on `(tv_sec, tv_nsec)`. -/
def LINUX.le (a b : LINUX.benchmark_time) : Prop :=
  a.tv_sec < b.tv_sec ∨ (a.tv_sec = b.tv_sec ∧ a.tv_nsec ≤ b.tv_nsec)

/-- The nanoseconds from `a` to `b` as an unbounded integer:
`(b.sec - a.sec) * 10^9 + (b.nsec - a.nsec)`. -/
def LINUX.span (a b : LINUX.benchmark_time) : Int :=
  (b.tv_sec - a.tv_sec) * 10 ^ 9 + (b.tv_nsec - a.tv_nsec)

instance (t : LINUX.benchmark_time) : Decidable (LINUX.normalised t) :=
  inferInstanceAs (Decidable (0 ≤ t.tv_nsec ∧ t.tv_nsec < 10 ^ 9))

instance (a b : LINUX.benchmark_time) : Decidable (LINUX.le a b) :=
  inferInstanceAs (Decidable (a.tv_sec < b.tv_sec ∨ (a.tv_sec = b.tv_sec ∧ a.tv_nsec ≤ b.tv_nsec)))

/-- A split-register point is well formed when both halves fit 32 bits. -/
def X86.well_formed (a : X86.benchmark_time) : Prop :=
  a.hi < 2 ^ 32 ∧ a.lo < 2 ^ 32

/-- Time order of split-register points: lexicographic on `(hi, lo)`. -/
def X86.le (a b : X86.benchmark_time) : Prop :=
  a.hi < b.hi ∨ (a.hi = b.hi ∧ a.lo ≤ b.lo)

instance (a : X86.benchmark_time) : Decidable (X86.well_formed a) :=
  inferInstanceAs (Decidable (a.hi < 2 ^ 32 ∧ a.lo < 2 ^ 32))

instance (a b : X86.benchmark_time) : Decidable (X86.le a b) :=
  inferInstanceAs (Decidable (a.hi < b.hi ∨ (a.hi = b.hi ∧ a.lo ≤ b.lo)))

/-- The legal values of a time point of the selected model. -/
def valid_point : (m : timing_model) → benchmark_time m → Prop
  | .AARCH64_TIMING => fun (a : Nat) => a < 2 ^ 64
  | .OCTEON_TIMING => fun (a : Nat) => a < 2 ^ 64
  | .LINUX_TIMING => LINUX.normalised
  | .X86_TIMING => X86.well_formed

/-- The time order of the selected model. -/
def time_le : (m : timing_model) → benchmark_time m → benchmark_time m → Prop
  | .AARCH64_TIMING => fun (a b : Nat) => a ≤ b
  | .OCTEON_TIMING => fun (a b : Nat) => a ≤ b
  | .LINUX_TIMING => LINUX.le
  | .X86_TIMING => X86.le

/-- No wrap between `start` and `stop`. For the counters the numeric order
of the two readings already says so; for the wall clock the nanoseconds
between the two points fit the 64-bit result. -/
def no_wrap : (m : timing_model) → benchmark_time m → benchmark_time m → Prop
  | .AARCH64_TIMING => fun _ _ => True
  | .OCTEON_TIMING => fun _ _ => True
  | .LINUX_TIMING => fun start stop => LINUX.span start stop < 2 ^ 64
  | .X86_TIMING => fun _ _ => True

instance : (m : timing_model) → (a : benchmark_time m) → Decidable (valid_point m a)
  | .AARCH64_TIMING, a => Nat.decLt a (2 ^ 64)
  | .OCTEON_TIMING, a => Nat.decLt a (2 ^ 64)
  | .LINUX_TIMING, a => inferInstanceAs (Decidable (LINUX.normalised a))
  | .X86_TIMING, a => inferInstanceAs (Decidable (X86.well_formed a))

instance : (m : timing_model) → (a b : benchmark_time m) → Decidable (time_le m a b)
  | .AARCH64_TIMING, a, b => Nat.decLe a b
  | .OCTEON_TIMING, a, b => Nat.decLe a b
  | .LINUX_TIMING, a, b => inferInstanceAs (Decidable (LINUX.le a b))
  | .X86_TIMING, a, b => inferInstanceAs (Decidable (X86.le a b))

instance : (m : timing_model) → (a b : benchmark_time m) → Decidable (no_wrap m a b)
  | .AARCH64_TIMING, _, _ => inferInstanceAs (Decidable True)
  | .OCTEON_TIMING, _, _ => inferInstanceAs (Decidable True)
  | .LINUX_TIMING, a, b => inferInstanceAs (Decidable (LINUX.span a b < 2 ^ 64))
  | .X86_TIMING, _, _ => inferInstanceAs (Decidable True)

/-- The unit suffix of a report line as the specification gives it: `.`
for the cycle-based models, ` nanoseconds` for the wall clock. -/
def unit_suffix : timing_model → String
  | .LINUX_TIMING => " nanoseconds"
  | _ => "."

/-- The elapsed value of the test with index `i` in a run of `main`: the
time source is read twice per test, so the marks of test `i` are the reads
`2 * i` and `2 * i + 1`. -/
def elapsed (m : timing_model) (clock : Nat → benchmark_time m) (i : Nat) : Nat :=
  time_spent m (clock (2 * i)) (clock (2 * i + 1))

/-- The report line of the specification, without its newline:
`<name>: total time = <elapsed><unit suffix>`. -/
def report_line (m : timing_model) (clock : Nat → benchmark_time m) (i : Nat)
    (name : String) : String :=
  name ++ ": total time = " ++ Nat.repr (elapsed m clock i) ++ unit_suffix m

/-- Texts written one after the other. -/
def concat_texts : List String → String
  | [] => ""
  | s :: rest => s ++ concat_texts rest

/-- The lines of a text, a line being ended by a newline character (a
last line without newline counts when it is not empty). The first
argument holds the characters of the current line, latest first. -/
def split_lines : List Char → List Char → List (List Char)
  | cur, [] => if cur.isEmpty then [] else [cur.reverse]
  | cur, c :: cs =>
    if c = '\n' then cur.reverse :: split_lines [] cs else split_lines (c :: cur) cs

/-- The report lines of an output: its lines that are not blank. -/
def report_lines (out : String) : List String :=
  ((split_lines [] out.data).filter (fun l => !l.isEmpty)).map String.mk

/-- The actions the specification lists for the test with index `i`, in
order: fill the source page, mark-start, the call, mark-stop, then the
report (the name, the elapsed value computed and printed, the newline). -/
def test_actions (m : timing_model) (PAGE_SIZE : Nat) (clock : Nat → benchmark_time m)
    (i : Nat) (name : String) : List Action :=
  [ Action.memset .pagesrc i PAGE_SIZE,
    Action.start_time,
    Action.func i .pagedst .pagesrc (List.replicate PAGE_SIZE (i % 256)),
    Action.stop_time,
    Action.printf (name ++ ": "),
    Action.time_spent,
    Action.printf (print_time_text m (clock (2 * i)) (clock (2 * i + 1))),
    Action.printf "\n" ]

/-- The precondition of the runner in the specification, both buffers
allocated: `PAGE_SIZE` is an alignment the allocator accepts and it has
memory for both pages. -/
def buffers_allocated (PAGE_SIZE : Nat) (out_of_memory : Ptr → Bool) : Prop :=
  valid_alignment PAGE_SIZE = true ∧ out_of_memory .pagesrc = false ∧
    out_of_memory .pagedst = false

instance (PAGE_SIZE : Nat) (out_of_memory : Ptr → Bool) :
    Decidable (buffers_allocated PAGE_SIZE out_of_memory) :=
  inferInstanceAs (Decidable (valid_alignment PAGE_SIZE = true ∧
    out_of_memory .pagesrc = false ∧ out_of_memory .pagedst = false))

/-- The state after the loop body has run for the entries `cases`, the
first of them at index `i`; `none` when one of the passes faults. -/
def run_cases {m : timing_model} (PAGE_SIZE : Nat) (clock : Nat → benchmark_time m) :
    List (String × (List Nat → List Nat → List Nat × List Nat)) → Nat → World m →
      Option (World m)
  | [], _, w => some w
  | c :: rest, i, w =>
    match loop_body PAGE_SIZE clock i c.1 c.2 w with
    | none => none
    | some w => run_cases PAGE_SIZE clock rest (i + 1) w

/-! ## Machine integer lemmas -/

theorem to_ull_cast (z : Int) : (to_ull z : Int) = z % 2 ^ 64 := by
  unfold to_ull
  exact Int.toNat_of_nonneg (Int.emod_nonneg _ (by norm_num))

theorem to_ull_lt (z : Int) : to_ull z < 2 ^ 64 := by
  have h := to_ull_cast z
  have h2 : z % 2 ^ 64 < 2 ^ 64 := Int.emod_lt_of_pos _ (by norm_num)
  omega

theorem to_ull_of_range (z : Int) (h0 : 0 ≤ z) (h1 : z < 2 ^ 64) : (to_ull z : Int) = z := by
  rw [to_ull_cast]
  exact Int.emod_eq_of_lt h0 h1

theorem to_ull_natCast (n : Nat) : to_ull (n : Int) = n % 2 ^ 64 := by
  have h := to_ull_cast (n : Int)
  omega

theorem to_ull_to_ll (z : Int) : to_ull (to_ll z) = to_ull z := by
  have h1 := to_ull_cast (to_ll z)
  have h2 := to_ull_cast z
  unfold to_ll at h1 ⊢
  omega

theorem aarch64_time_spent_cast (s e : Nat) :
    (AARCH64.time_spent s e : Int) = ((e : Int) - s) % 2 ^ 64 := by
  unfold AARCH64.time_spent
  exact to_ull_cast _

theorem linux_time_spent_cast (s e : LINUX.benchmark_time) :
    (LINUX.time_spent s e : Int) = LINUX.span s e % 2 ^ 64 := by
  unfold LINUX.time_spent LINUX.span
  simp only [to_ull_to_ll, to_ull_cast]
  unfold to_ll LINUX.BILLION
  omega

theorem linux_span_nonneg (a b : LINUX.benchmark_time) (ha : LINUX.normalised a)
    (hb : LINUX.normalised b) (h : LINUX.le a b) : 0 ≤ LINUX.span a b := by
  unfold LINUX.normalised at ha hb
  unfold LINUX.le at h
  unfold LINUX.span
  omega

theorem linux_span_mono (a b c : LINUX.benchmark_time) (hb : LINUX.normalised b)
    (hc : LINUX.normalised c) (h : LINUX.le b c) : LINUX.span a b ≤ LINUX.span a c := by
  unfold LINUX.normalised at hb hc
  unfold LINUX.le at h
  unfold LINUX.span
  omega

theorem linux_time_spent_of_range (s e : LINUX.benchmark_time) (h0 : 0 ≤ LINUX.span s e)
    (h1 : LINUX.span s e < 2 ^ 64) : (LINUX.time_spent s e : Int) = LINUX.span s e := by
  rw [linux_time_spent_cast]
  exact Int.emod_eq_of_lt h0 h1

theorem x86_convert_to_cycles_eq (a : X86.benchmark_time) (h : X86.well_formed a) :
    X86.convert_to_cycles a = a.hi * 2 ^ 32 + a.lo := by
  obtain ⟨hh, hl⟩ := h
  unfold X86.convert_to_cycles
  rw [to_ull_natCast, to_ull_natCast, Nat.shiftLeft_eq]
  have e1 : a.hi % 2 ^ 64 = a.hi := Nat.mod_eq_of_lt (by omega)
  have e2 : a.lo % 2 ^ 64 = a.lo := Nat.mod_eq_of_lt (by omega)
  have e3 : a.hi * 2 ^ 32 % 2 ^ 64 = a.hi * 2 ^ 32 := Nat.mod_eq_of_lt (by omega)
  rw [e1, e2, e3, Nat.mul_comm a.hi, ← Nat.mul_add_lt_is_or hl]

theorem x86_convert_to_cycles_lt (a : X86.benchmark_time) (h : X86.well_formed a) :
    X86.convert_to_cycles a < 2 ^ 64 := by
  rw [x86_convert_to_cycles_eq a h]
  obtain ⟨hh, hl⟩ := h
  omega

/-! ## The elapsed value -/

/-- C3: under `LINUX_TIMING`, for normalised points `s` and `e` with `e` not
earlier than `s` and the product `BILLION * (e.tv_sec - s.tv_sec)` inside
the signed 64-bit range, `time_spent` is exactly
`(e.tv_sec - s.tv_sec) * 10^9 + (e.tv_nsec - s.tv_nsec)`, which is not
negative; the nanosecond fields may be in either order (borrow case). -/
theorem linux_time_spent_exact (s e : LINUX.benchmark_time)
    (hs : LINUX.normalised s) (he : LINUX.normalised e) (hle : LINUX.le s e)
    (hfit : -(2 ^ 63) ≤ LINUX.BILLION * (e.tv_sec - s.tv_sec) ∧
      LINUX.BILLION * (e.tv_sec - s.tv_sec) < 2 ^ 63) :
    (LINUX.time_spent s e : Int) = (e.tv_sec - s.tv_sec) * 10 ^ 9 + (e.tv_nsec - s.tv_nsec) ∧
      0 ≤ (e.tv_sec - s.tv_sec) * 10 ^ 9 + (e.tv_nsec - s.tv_nsec) := by
  have hc := linux_time_spent_cast s e
  unfold LINUX.span at hc
  unfold LINUX.normalised at hs he
  unfold LINUX.le at hle
  unfold LINUX.BILLION at hfit
  omega

/-- Witness for C3 at a borrow case: from 5.9 s to 7.1 s is 1.2e9 ns. -/
theorem linux_time_spent_exact_witness :
    (LINUX.time_spent ⟨5, 900000000⟩ ⟨7, 100000000⟩ : Int)
        = (7 - 5) * 10 ^ 9 + (100000000 - 900000000) ∧
      (0 : Int) ≤ (7 - 5) * 10 ^ 9 + (100000000 - 900000000) :=
  linux_time_spent_exact ⟨5, 900000000⟩ ⟨7, 100000000⟩ (by decide) (by decide)
    (by decide) (by decide)

/-- C4: for the cycle counters `time_spent` is subtraction modulo `2 ^ 64`:
when the stop reading is `(start + d) mod 2^64` for a tick count
`d < 2^64`, the result is `d`, for AARCH64, for OCTEON and for X86 after
`convert_to_cycles`; in general the result is `(end - start) mod 2^64`. -/
theorem cycle_time_spent_wraparound (start d : Nat) (hs : start < 2 ^ 64) (hd : d < 2 ^ 64) :
    AARCH64.time_spent start ((start + d) % 2 ^ 64) = d ∧
    OCTEON.time_spent start ((start + d) % 2 ^ 64) = d ∧
    (∀ a b : X86.benchmark_time, X86.convert_to_cycles a = start →
      X86.convert_to_cycles b = (start + d) % 2 ^ 64 → X86.time_spent a b = d) ∧
    (∀ e : Nat, (AARCH64.time_spent start e : Int) = ((e : Int) - start) % 2 ^ 64 ∧
      (OCTEON.time_spent start e : Int) = ((e : Int) - start) % 2 ^ 64) ∧
    (∀ a b : X86.benchmark_time, (X86.time_spent a b : Int)
      = ((X86.convert_to_cycles b : Int) - X86.convert_to_cycles a) % 2 ^ 64) := by
  have _ := hs
  have key : to_ull ((((start + d) % 2 ^ 64 : Nat) : Int) - (start : Int)) = d := by
    have h := to_ull_cast ((((start + d) % 2 ^ 64 : Nat) : Int) - (start : Int))
    omega
  refine ⟨key, key, ?_, ?_, ?_⟩
  · intro a b ha hb
    unfold X86.time_spent
    rw [ha, hb]
    exact key
  · intro e
    exact ⟨to_ull_cast _, to_ull_cast _⟩
  · intro a b
    exact to_ull_cast _

/-- Witness for C4: the counter wraps from `2^64 - 2` to `3` in 5 ticks. -/
theorem cycle_time_spent_wraparound_witness :
    AARCH64.time_spent (2 ^ 64 - 2) ((2 ^ 64 - 2 + 5) % 2 ^ 64) = 5 :=
  (cycle_time_spent_wraparound (2 ^ 64 - 2) 5 (by decide) (by decide)).1

/-- C5: under `X86_TIMING`, for 32-bit halves `hi` and `lo`,
`convert_to_cycles` is `(hi << 32) | lo`, which is `hi * 2^32 + lo`;
the table entries are `(0,0) -> 0`, `(1,0) -> 2^32` and
`(0,0xFFFFFFFF) -> 0xFFFFFFFF`. -/
theorem convert_to_cycles_combine (hi lo : Nat) (hhi : hi < 2 ^ 32) (hlo : lo < 2 ^ 32) :
    X86.convert_to_cycles ⟨hi, lo⟩ = (hi <<< 32) ||| lo ∧
    X86.convert_to_cycles ⟨hi, lo⟩ = hi * 2 ^ 32 + lo ∧
    X86.convert_to_cycles ⟨hi, lo⟩ / 2 ^ 32 = hi ∧
    X86.convert_to_cycles ⟨0, 0⟩ = 0 ∧
    X86.convert_to_cycles ⟨1, 0⟩ = 2 ^ 32 ∧
    X86.convert_to_cycles ⟨0, 0xFFFFFFFF⟩ = 0xFFFFFFFF := by
  have h := x86_convert_to_cycles_eq ⟨hi, lo⟩ ⟨hhi, hlo⟩
  simp only at h
  refine ⟨?_, h, ?_, by decide, by decide, by decide⟩
  · rw [h, Nat.shiftLeft_eq, Nat.mul_comm hi, Nat.mul_add_lt_is_or hlo]
  · rw [h]
    omega

/-- Witness for C5 at `hi = 3`, `lo = 7`. -/
theorem convert_to_cycles_combine_witness :
    X86.convert_to_cycles ⟨3, 7⟩ = 3 * 2 ^ 32 + 7 :=
  (convert_to_cycles_combine 3 7 (by decide) (by decide)).2.1

/-- C8: in every timing model, for legal points `start`, `s1`, `s2` with
`start <= s1 <= s2` in the time order of the model and no wrap up to `s2`,
`time_spent start s1 <= time_spent start s2`. -/
theorem time_spent_monotone (m : timing_model) (start s1 s2 : benchmark_time m)
    (hv0 : valid_point m start) (hv1 : valid_point m s1) (hv2 : valid_point m s2)
    (h1 : time_le m start s1) (h2 : time_le m s1 s2) (hw : no_wrap m start s2) :
    time_spent m start s1 ≤ time_spent m start s2 := by
  cases m with
  | AARCH64_TIMING =>
    have a1 := aarch64_time_spent_cast start s1
    have a2 := aarch64_time_spent_cast start s2
    simp only [valid_point, time_le] at hv0 hv1 hv2 h1 h2
    show AARCH64.time_spent start s1 ≤ AARCH64.time_spent start s2
    omega
  | OCTEON_TIMING =>
    have a1 := aarch64_time_spent_cast start s1
    have a2 := aarch64_time_spent_cast start s2
    simp only [valid_point, time_le] at hv0 hv1 hv2 h1 h2
    show AARCH64.time_spent start s1 ≤ AARCH64.time_spent start s2
    omega
  | LINUX_TIMING =>
    have p1 := linux_span_nonneg start s1 hv0 hv1 h1
    have p2 := linux_span_mono start s1 s2 hv1 hv2 h2
    have hw2 : LINUX.span start s2 < 2 ^ 64 := hw
    have a1 := linux_time_spent_of_range start s1 p1 (lt_of_le_of_lt p2 hw2)
    have a2 := linux_time_spent_of_range start s2 (le_trans p1 p2) hw2
    show LINUX.time_spent start s1 ≤ LINUX.time_spent start s2
    omega
  | X86_TIMING =>
    simp only [valid_point, time_le] at hv0 hv1 hv2 h1 h2
    have c0 := x86_convert_to_cycles_eq start hv0
    have c1 := x86_convert_to_cycles_eq s1 hv1
    have c2 := x86_convert_to_cycles_eq s2 hv2
    have a1 := to_ull_cast ((X86.convert_to_cycles s1 : Int) - X86.convert_to_cycles start)
    have a2 := to_ull_cast ((X86.convert_to_cycles s2 : Int) - X86.convert_to_cycles start)
    simp only [X86.well_formed, X86.le] at hv0 hv1 hv2 h1 h2
    show to_ull _ ≤ to_ull _
    omega

/-- Witness for C8 in each of the four models. -/
theorem time_spent_monotone_witness :
    time_spent .AARCH64_TIMING (5 : Nat) (7 : Nat) ≤ time_spent .AARCH64_TIMING (5 : Nat) (9 : Nat) ∧
    time_spent .OCTEON_TIMING (5 : Nat) (7 : Nat) ≤ time_spent .OCTEON_TIMING (5 : Nat) (9 : Nat) ∧
    time_spent .LINUX_TIMING ({ tv_sec := 5, tv_nsec := 900000000 } : LINUX.benchmark_time)
        ({ tv_sec := 6, tv_nsec := 100 } : LINUX.benchmark_time)
      ≤ time_spent .LINUX_TIMING ({ tv_sec := 5, tv_nsec := 900000000 } : LINUX.benchmark_time)
        ({ tv_sec := 6, tv_nsec := 200 } : LINUX.benchmark_time) ∧
    time_spent .X86_TIMING ({ hi := 1, lo := 4294967295 } : X86.benchmark_time)
        ({ hi := 2, lo := 0 } : X86.benchmark_time)
      ≤ time_spent .X86_TIMING ({ hi := 1, lo := 4294967295 } : X86.benchmark_time)
        ({ hi := 2, lo := 1 } : X86.benchmark_time) :=
  ⟨time_spent_monotone .AARCH64_TIMING (5 : Nat) (7 : Nat) (9 : Nat)
      (by decide) (by decide) (by decide) (by decide) (by decide) trivial,
   time_spent_monotone .OCTEON_TIMING (5 : Nat) (7 : Nat) (9 : Nat)
      (by decide) (by decide) (by decide) (by decide) (by decide) trivial,
   time_spent_monotone .LINUX_TIMING ({ tv_sec := 5, tv_nsec := 900000000 } : LINUX.benchmark_time)
      ({ tv_sec := 6, tv_nsec := 100 } : LINUX.benchmark_time)
      ({ tv_sec := 6, tv_nsec := 200 } : LINUX.benchmark_time)
      (by decide) (by decide) (by decide) (by decide) (by decide) (by decide),
   time_spent_monotone .X86_TIMING ({ hi := 1, lo := 4294967295 } : X86.benchmark_time)
      ({ hi := 2, lo := 0 } : X86.benchmark_time) ({ hi := 2, lo := 1 } : X86.benchmark_time)
      (by decide) (by decide) (by decide) (by decide) (by decide) trivial⟩

/-- C9: in every timing model and for every time point `x`, `time_spent`
with start and end both `x` is not negative and is exactly 0. -/
theorem time_spent_self (m : timing_model) (x : benchmark_time m) :
    0 ≤ time_spent m x x ∧ time_spent m x x = 0 := by
  refine ⟨Nat.zero_le _, ?_⟩
  cases m with
  | AARCH64_TIMING =>
    have a := aarch64_time_spent_cast x x
    show AARCH64.time_spent x x = 0
    omega
  | OCTEON_TIMING =>
    have a := aarch64_time_spent_cast x x
    show AARCH64.time_spent x x = 0
    omega
  | LINUX_TIMING =>
    have a := linux_time_spent_cast x x
    unfold LINUX.span at a
    show LINUX.time_spent x x = 0
    omega
  | X86_TIMING =>
    have a := to_ull_cast ((X86.convert_to_cycles x : Int) - X86.convert_to_cycles x)
    show to_ull _ = 0
    omega

/-- C10: with `AARCH64_PMU_TIMING`, from `PMCR_EL0 = 0` and
`PMCNTENSET_EL0 = 0` the function `enable_count_register` writes 1 to
`PMCR_EL0` and `0xFFFFFFFF80000000` to `PMCNTENSET_EL0`: bits 32 to 63 of
the second register are written as 1 although they were read as 0, where
setting bit 31 alone would have written `0x80000000`. -/
theorem enable_count_register_sets_high_bits :
    AARCH64.enable_count_register true ⟨0, 0⟩ = ⟨1, 0xFFFFFFFF80000000⟩ ∧
    (AARCH64.enable_count_register true ⟨0, 0⟩).PMCNTENSET_EL0 ≠ 0 ||| 2 ^ 31 ∧
    (∀ i, 32 ≤ i → i < 64 → Nat.testBit (0 : Nat) i = false ∧
      Nat.testBit (AARCH64.enable_count_register true ⟨0, 0⟩).PMCNTENSET_EL0 i = true) ∧
    AARCH64.enable_count_register false ⟨0, 0⟩ = ⟨0, 0⟩ := by
  refine ⟨by decide, by decide, ?_, by decide⟩
  intro i h1 h2
  have e : (AARCH64.enable_count_register true ⟨0, 0⟩).PMCNTENSET_EL0 = 0xFFFFFFFF80000000 := by
    decide
  rw [e]
  refine ⟨Nat.zero_testBit i, ?_⟩
  interval_cases i <;> decide


/-! ## Lines of the output -/

theorem split_lines_append (l : List Char) (h : '\n' ∉ l) (cur rest : List Char) :
    split_lines cur (l ++ '\n' :: rest) = (cur.reverse ++ l) :: split_lines [] rest := by
  induction l generalizing cur with
  | nil => simp [split_lines]
  | cons c cs ih =>
    have hc : c ≠ '\n' := fun e => h (by simp [e])
    have hcs : '\n' ∉ cs := fun e => h (List.mem_cons_of_mem _ e)
    have step : split_lines cur (c :: (cs ++ '\n' :: rest))
        = split_lines (c :: cur) (cs ++ '\n' :: rest) := by
      simp only [split_lines, hc, if_false]
    rw [List.cons_append, step, ih hcs]
    simp

theorem digitChar_ne_newline (d : Nat) (h : d < 10) : Nat.digitChar d ≠ '\n' := by
  interval_cases d <;> decide

theorem toDigitsCore_no_newline (fuel n : Nat) (acc : List Char) (h : '\n' ∉ acc) :
    '\n' ∉ Nat.toDigitsCore 10 fuel n acc := by
  induction fuel generalizing n acc with
  | zero => simpa [Nat.toDigitsCore] using h
  | succ fuel ih =>
    have hd : '\n' ∉ Nat.digitChar (n % 10) :: acc := by
      intro e
      rcases List.mem_cons.mp e with e | e
      · exact digitChar_ne_newline (n % 10) (Nat.mod_lt _ (by decide)) e.symm
      · exact h e
    simp only [Nat.toDigitsCore]
    split
    · exact hd
    · exact ih _ _ hd

theorem repr_no_newline (n : Nat) : '\n' ∉ (Nat.repr n).data := by
  show '\n' ∉ Nat.toDigitsCore 10 (n + 1) n []
  exact toDigitsCore_no_newline _ _ _ (List.not_mem_nil _)

theorem unit_suffix_no_newline (m : timing_model) : '\n' ∉ (unit_suffix m).data := by
  cases m <;> decide

theorem report_line_no_newline (m : timing_model) (clock : Nat → benchmark_time m) (i : Nat)
    (name : String) (h : '\n' ∉ name.data) : '\n' ∉ (report_line m clock i name).data := by
  have h2 : '\n' ∉ ": total time = ".data := by decide
  simp only [report_line, String.data_append, List.mem_append, not_or]
  exact ⟨⟨⟨h, h2⟩, repr_no_newline _⟩, unit_suffix_no_newline m⟩

theorem report_line_not_blank (m : timing_model) (clock : Nat → benchmark_time m) (i : Nat)
    (name : String) : (report_line m clock i name).data.isEmpty = false := by
  have h2 : ':' ∈ ": total time = ".data := by decide
  have h3 : ':' ∈ (report_line m clock i name).data := by
    simp only [report_line, String.data_append, List.mem_append]
    exact Or.inl (Or.inl (Or.inr h2))
  cases hd : (report_line m clock i name).data with
  | nil => rw [hd] at h3; exact absurd h3 (List.not_mem_nil _)
  | cons a l => rfl

theorem split_lines_reports (m : timing_model) (clock : Nat → benchmark_time m)
    (cases : List (String × (List Nat → List Nat → List Nat × List Nat))) (i : Nat)
    (hn : ∀ c ∈ cases, '\n' ∉ c.1.data) :
    report_lines (concat_texts
        ((cases.enumFrom i).map (fun p => report_line m clock p.1 p.2.1 ++ "\n\n")))
      = (cases.enumFrom i).map (fun p => report_line m clock p.1 p.2.1) := by
  induction cases generalizing i with
  | nil => rfl
  | cons c rest ih =>
    have h1 := report_line_no_newline m clock i c.1 (hn c (List.mem_cons_self _ _))
    have h2 := report_line_not_blank m clock i c.1
    have ih2 := ih (i + 1) (fun c hc => hn c (List.mem_cons_of_mem _ hc))
    have e : ("\n\n" : String).data = ['\n', '\n'] := rfl
    unfold report_lines at ih2 ⊢
    simp only [List.enumFrom_cons, List.map_cons, concat_texts, String.data_append, e,
      List.append_assoc, List.cons_append, List.nil_append]
    rw [split_lines_append _ h1]
    simp only [split_lines, if_true, List.reverse_nil, List.nil_append, List.filter_cons, h2,
      Bool.not_false, List.isEmpty_nil, Bool.not_true, List.map_cons]
    simp only [Bool.false_eq_true, if_false, if_true]
    rw [ih2]

/-! ## The runner -/

theorem main_loop_registry {m : timing_model} (PAGE_SIZE : Nat) (clock : Nat → benchmark_time m)
    (cases : List (String × (List Nat → List Nat → List Nat × List Nat))) (i : Nat)
    (w : World m) :
    main_loop PAGE_SIZE clock (registry cases) i w = run_cases PAGE_SIZE clock cases i w := by
  induction cases generalizing i w with
  | nil => rfl
  | cons c rest ih =>
    unfold registry at ih ⊢
    simp only [List.map_cons, List.cons_append, main_loop, run_cases]
    cases loop_body PAGE_SIZE clock i c.1 c.2 w with
    | none => rfl
    | some w2 => exact ih (i + 1) w2

theorem print_time_text_eq (m : timing_model) (s e : benchmark_time m) :
    print_time_text m s e = "total time = " ++ Nat.repr (time_spent m s e) ++ unit_suffix m ++ "\n" := by
  cases m <;>
    simp only [print_time_text, AARCH64.print_time, OCTEON.print_time, LINUX.print_time,
      X86.print_time, time_spent, unit_suffix, String.append_assoc] <;> rfl

theorem test_text_eq (m : timing_model) (name : String) (s e : benchmark_time m) :
    name ++ ": " ++ print_time_text m s e ++ "\n"
      = name ++ ": total time = " ++ Nat.repr (time_spent m s e) ++ unit_suffix m ++ "\n\n" := by
  have e1 : ": " ++ "total time = " = ": total time = " := by decide
  have e2 : "\n" ++ "\n" = "\n\n" := by decide
  rw [print_time_text_eq]
  simp only [String.append_assoc]
  rw [← String.append_assoc ": " "total time = ", e1, e2]

theorem loop_body_allocated {m : timing_model} (PAGE_SIZE : Nat) (clock : Nat → benchmark_time m)
    (i : Nat) (name : String) (f : List Nat → List Nat → List Nat × List Nat) (w : World m)
    (src dst : List Nat) (hs : w.pagesrc = some src) (hd : w.pagedst = some dst) :
    ∃ w2, loop_body PAGE_SIZE clock i name f w = some w2 ∧
      w2.stdout = w.stdout
        ++ (name ++ ": " ++ print_time_text m (clock w.reads) (clock (w.reads + 1)) ++ "\n") ∧
      w2.reads = w.reads + 2 ∧
      w2.log = w.log ++ [ Action.memset .pagesrc i PAGE_SIZE, Action.start_time,
          Action.func i .pagedst .pagesrc
            (List.replicate PAGE_SIZE (i % 256) ++ src.drop PAGE_SIZE),
          Action.stop_time, Action.printf (name ++ ": "), Action.time_spent,
          Action.printf (print_time_text m (clock w.reads) (clock (w.reads + 1))),
          Action.printf "\n" ] ∧
      w2.pagesrc
        = some (f dst (List.replicate PAGE_SIZE (i % 256) ++ src.drop PAGE_SIZE)).2 ∧
      w2.pagedst
        = some (f dst (List.replicate PAGE_SIZE (i % 256) ++ src.drop PAGE_SIZE)).1 := by
  cases w with
  | mk pagesrc pagedst bs be reads out log =>
    simp only at hs hd
    subst hs hd
    refine ⟨_, rfl, ?_, rfl, ?_, rfl, rfl⟩
    · simp only [printf, print_time, stop_time, start_time, String.append_assoc]
    · simp only [printf, print_time, stop_time, start_time, List.append_assoc,
        List.cons_append, List.nil_append]

theorem loop_body_no_enable {m : timing_model} (PAGE_SIZE : Nat) (clock : Nat → benchmark_time m)
    (i : Nat) (name : String) (f : List Nat → List Nat → List Nat × List Nat) (w w2 : World m)
    (h : loop_body PAGE_SIZE clock i name f w = some w2)
    (hn : Action.enable_count_register ∉ w.log) :
    Action.enable_count_register ∉ w2.log := by
  cases w with
  | mk pagesrc pagedst bs be reads out log =>
    cases pagesrc with
    | none =>
      by_cases hP : PAGE_SIZE = 0 <;> cases pagedst <;>
        simp [loop_body, memset_pagesrc, call_func, start_time, hP] at h
    | some src =>
      cases pagedst with
      | none =>
        simp [loop_body, memset_pagesrc, call_func, start_time] at h
      | some dst =>
        obtain ⟨w3, h3, -, -, hl, -, -⟩ :=
          loop_body_allocated PAGE_SIZE clock i name f
            (World.mk (some src) (some dst) bs be reads out log) src dst rfl rfl
        rw [h3] at h
        cases h
        rw [hl]
        simp only at hn
        simp [hn]

theorem main_loop_no_enable {m : timing_model} (PAGE_SIZE : Nat) (clock : Nat → benchmark_time m)
    (tests : List test) (i : Nat) (w w2 : World m)
    (h : main_loop PAGE_SIZE clock tests i w = some w2)
    (hn : Action.enable_count_register ∉ w.log) :
    Action.enable_count_register ∉ w2.log := by
  induction tests generalizing i w with
  | nil => simp only [main_loop] at h; cases h
  | cons t rest ih =>
    simp only [main_loop] at h
    split at h
    · cases h
      exact hn
    · split at h
      · cases h
      · split at h
        · cases h
        · rename_i w3 h3
          exact ih (i + 1) w3 h (loop_body_no_enable PAGE_SIZE clock i _ _ w w3 h3 hn)

theorem run_cases_allocated {m : timing_model} (PAGE_SIZE : Nat) (clock : Nat → benchmark_time m)
    (cases : List (String × (List Nat → List Nat → List Nat × List Nat))) (i : Nat)
    (w : World m) (src dst : List Nat) (hs : w.pagesrc = some src) (hd : w.pagedst = some dst)
    (hr : w.reads = 2 * i) :
    ∃ w2, run_cases PAGE_SIZE clock cases i w = some w2 ∧
      w2.stdout = w.stdout ++ concat_texts
          ((cases.enumFrom i).map (fun p => report_line m clock p.1 p.2.1 ++ "\n\n")) ∧
      (src.length ≤ PAGE_SIZE →
        (∀ c ∈ cases, ∀ d s : List Nat, (c.2 d s).2.length = s.length) →
        w2.log = w.log
          ++ (cases.enumFrom i).flatMap (fun p => test_actions m PAGE_SIZE clock p.1 p.2.1)) := by
  induction cases generalizing i w src dst with
  | nil =>
    refine ⟨w, rfl, ?_, ?_⟩
    · simp only [List.enumFrom_nil, List.map_nil, concat_texts, String.append_empty]
    · intro _ _
      simp only [List.enumFrom_nil, List.flatMap_nil, List.append_nil]
  | cons c rest ih =>
    obtain ⟨w1, h1, hout, hreads, hlog, hsrc, hdst⟩ :=
      loop_body_allocated PAGE_SIZE clock i c.1 c.2 w src dst hs hd
    have hr2 : w1.reads = 2 * (i + 1) := by
      rw [hreads, hr]
      omega
    obtain ⟨w2, h2, hout2, hlog2⟩ := ih (i + 1) w1 _ _ hsrc hdst hr2
    refine ⟨w2, ?_, ?_, ?_⟩
    · simp only [run_cases, h1]
      exact h2
    · rw [hout2, hout, test_text_eq, hr]
      simp only [List.enumFrom_cons, List.map_cons, concat_texts, report_line, elapsed,
        String.append_assoc]
    · intro hp hlen
      have hdrop : src.drop PAGE_SIZE = [] := List.drop_eq_nil_of_le hp
      have hp2 : (c.2 dst (List.replicate PAGE_SIZE (i % 256) ++ src.drop PAGE_SIZE)).2.length
          ≤ PAGE_SIZE := by
        rw [hlen c (List.mem_cons_self _ _), hdrop]
        simp
      rw [hlog2 hp2 (fun c hc => hlen c (List.mem_cons_of_mem _ hc)), hlog, hdrop, hr]
      simp only [List.enumFrom_cons, List.flatMap_cons, test_actions, List.append_nil,
        List.append_assoc]

theorem posix_memalign_allocated (m : timing_model) (PAGE_SIZE : Nat)
    (out_of_memory : Ptr → Bool) (garbage : Ptr → Nat → Nat)
    (halloc : buffers_allocated PAGE_SIZE out_of_memory) :
    ∃ w : World m,
      (posix_memalign out_of_memory garbage .pagedst PAGE_SIZE PAGE_SIZE
        (posix_memalign out_of_memory garbage .pagesrc PAGE_SIZE PAGE_SIZE
          (World.init m)).1).1 = w ∧
      w.pagesrc = some ((List.range PAGE_SIZE).map (fun k => garbage .pagesrc k % 256)) ∧
      w.pagedst = some ((List.range PAGE_SIZE).map (fun k => garbage .pagedst k % 256)) ∧
      w.reads = 0 ∧ w.stdout = "" ∧
      w.log = [Action.posix_memalign .pagesrc PAGE_SIZE PAGE_SIZE,
               Action.posix_memalign .pagedst PAGE_SIZE PAGE_SIZE] := by
  obtain ⟨hv, h1, h2⟩ := halloc
  refine ⟨_, rfl, ?_, ?_, ?_, ?_, ?_⟩ <;>
    simp [posix_memalign, World.init, hv, h1, h2]

theorem main_registry (m : timing_model) (PAGE_SIZE : Nat) (out_of_memory : Ptr → Bool)
    (garbage : Ptr → Nat → Nat) (clock : Nat → benchmark_time m)
    (cases : List (String × (List Nat → List Nat → List Nat × List Nat)))
    (halloc : buffers_allocated PAGE_SIZE out_of_memory) :
    ∃ w, main m PAGE_SIZE out_of_memory garbage clock (registry cases) = some (w, 0) ∧
      w.stdout = concat_texts
          ((cases.enumFrom 0).map (fun p => report_line m clock p.1 p.2.1 ++ "\n\n")) ∧
      ((∀ c ∈ cases, ∀ d s : List Nat, (c.2 d s).2.length = s.length) →
        w.log = [Action.posix_memalign .pagesrc PAGE_SIZE PAGE_SIZE,
                 Action.posix_memalign .pagedst PAGE_SIZE PAGE_SIZE]
          ++ (cases.enumFrom 0).flatMap (fun p => test_actions m PAGE_SIZE clock p.1 p.2.1)) := by
  obtain ⟨w0, e0, hs, hd, hr, hout, hlog⟩ :=
    posix_memalign_allocated m PAGE_SIZE out_of_memory garbage halloc
  obtain ⟨w2, h2, hout2, hlog2⟩ :=
    run_cases_allocated PAGE_SIZE clock cases 0 w0 _ _ hs hd (by rw [hr])
  refine ⟨w2, ?_, ?_, ?_⟩
  · unfold main
    simp only [e0, main_loop_registry, h2]
  · rw [hout2, hout]
    exact String.empty_append _
  · intro hlen
    rw [hlog2 (by simp) hlen, hlog]

/-- C1 (as amended): in every timing model the text written for a test is
its name, `: total time = `, the decimal elapsed value, the unit suffix
and then two newline characters, so a blank line follows each report
line; this holds for one pass of the loop body from any state with both
pages allocated, and, when the allocation of the buffers succeeds, the
whole output of a run is these texts in table order. -/
theorem report_text_two_newlines (m : timing_model) (PAGE_SIZE : Nat)
    (out_of_memory : Ptr → Bool) (garbage : Ptr → Nat → Nat) (clock : Nat → benchmark_time m)
    (cases : List (String × (List Nat → List Nat → List Nat × List Nat)))
    (halloc : buffers_allocated PAGE_SIZE out_of_memory) :
    (∀ (i : Nat) (name : String) (f : List Nat → List Nat → List Nat × List Nat) (w : World m)
        (src dst : List Nat), w.pagesrc = some src → w.pagedst = some dst →
      ∃ w2, loop_body PAGE_SIZE clock i name f w = some w2 ∧
        w2.stdout = w.stdout ++ (name ++ ": total time = "
            ++ Nat.repr (time_spent m (clock w.reads) (clock (w.reads + 1)))
            ++ unit_suffix m ++ "\n\n")) ∧
    ∃ w, main m PAGE_SIZE out_of_memory garbage clock (registry cases) = some (w, 0) ∧
      w.stdout = concat_texts (cases.enum.map (fun p =>
        p.2.1 ++ ": total time = "
          ++ Nat.repr (time_spent m (clock (2 * p.1)) (clock (2 * p.1 + 1)))
          ++ unit_suffix m ++ "\n\n")) := by
  constructor
  · intro i name f w src dst hs hd
    obtain ⟨w2, h2, hout, -⟩ := loop_body_allocated PAGE_SIZE clock i name f w src dst hs hd
    refine ⟨w2, h2, ?_⟩
    rw [hout, test_text_eq]
  · obtain ⟨w, hw, hout, -⟩ :=
      main_registry m PAGE_SIZE out_of_memory garbage clock cases halloc
    exact ⟨w, hw, hout⟩

/-- Witness for C1 (as amended): the tests `noop` and `copy` under
`LINUX_TIMING` with pages of 4096 bytes. -/
theorem report_text_two_newlines_witness :
    ∃ w, main .LINUX_TIMING 4096 (fun _ => false) (fun _ _ => 0)
        (fun k => ({ tv_sec := k, tv_nsec := 5 } : LINUX.benchmark_time))
        (registry [("noop", fun d s => (d, s)), ("copy", fun _ s => (s, s))])
        = some (w, 0) ∧
      w.stdout = concat_texts
        (([("noop", fun d s => (d, s)), ("copy", fun _ s => (s, s))] :
            List (String × (List Nat → List Nat → List Nat × List Nat))).enum.map (fun p =>
          p.2.1 ++ ": total time = "
            ++ Nat.repr (time_spent .LINUX_TIMING
                ({ tv_sec := (2 * p.1 : Nat), tv_nsec := 5 } : LINUX.benchmark_time)
                ({ tv_sec := (2 * p.1 + 1 : Nat), tv_nsec := 5 } : LINUX.benchmark_time))
            ++ unit_suffix .LINUX_TIMING ++ "\n\n")) :=
  (report_text_two_newlines .LINUX_TIMING 4096 (fun _ => false) (fun _ _ => 0)
    (fun k => ({ tv_sec := k, tv_nsec := 5 } : LINUX.benchmark_time))
    [("noop", fun d s => (d, s)), ("copy", fun _ s => (s, s))] (by decide)).2

/-- C1 (counterexample): with `AARCH64_TIMING`, pages of 4096 bytes
allocated, the one test `noop` and a counter that advances 10 ticks per
read, the run returns 0 and the output is `noop: total time = 10.`
followed by two newlines, which is not the single line
`noop: total time = 10.` with one newline. -/
theorem report_text_not_single_line :
    (main .AARCH64_TIMING 4096 (fun _ => false) (fun _ _ => 0) (fun k => (10 * k : Nat))
        (registry [("noop", fun d s => (d, s))])).map (fun r => (r.1.stdout, r.2))
      = some ("noop: total time = 10.\n\n", 0) ∧
    (main .AARCH64_TIMING 4096 (fun _ => false) (fun _ _ => 0) (fun k => (10 * k : Nat))
        (registry [("noop", fun d s => (d, s))])).map (fun r => r.1.stdout)
      ≠ some ("noop" ++ ": total time = " ++ Nat.repr 10 ++ "." ++ "\n") := by
  constructor <;> decide

/-- C2: when the allocation of the two buffers succeeds, for a table of
`N` named tests ended by the `NULL` entry, `main` returns exit code 0 and
the report lines of its output (the lines that are not blank) are exactly
`N`, the `i`-th being the line of the `i`-th test of the table; for the
empty table nothing is written, and that whatever the allocator answers.
Test names hold no newline character. -/
theorem main_reports_in_order (m : timing_model) (PAGE_SIZE : Nat)
    (out_of_memory : Ptr → Bool) (garbage : Ptr → Nat → Nat) (clock : Nat → benchmark_time m)
    (cases : List (String × (List Nat → List Nat → List Nat × List Nat)))
    (halloc : buffers_allocated PAGE_SIZE out_of_memory)
    (hn : ∀ c ∈ cases, '\n' ∉ c.1.data) :
    (∃ w, main m PAGE_SIZE out_of_memory garbage clock (registry cases) = some (w, 0) ∧
      report_lines w.stdout = cases.enum.map (fun p => report_line m clock p.1 p.2.1) ∧
      (report_lines w.stdout).length = cases.length ∧
      (cases = [] → w.stdout = "")) ∧
    (∀ any_allocator : Ptr → Bool,
      ∃ w, main m PAGE_SIZE any_allocator garbage clock (registry []) = some (w, 0) ∧
        w.stdout = "") := by
  constructor
  · obtain ⟨w, hw, hs2, -⟩ :=
      main_registry m PAGE_SIZE out_of_memory garbage clock cases halloc
    refine ⟨w, hw, ?_⟩
    have hl := split_lines_reports m clock cases 0 hn
    refine ⟨?_, ?_, ?_⟩
    · rw [hs2, hl]
      rfl
    · rw [hs2, hl]
      simp
    · intro hc
      rw [hs2, hc]
      rfl
  · intro any_allocator
    refine ⟨_, rfl, ?_⟩
    unfold posix_memalign
    simp only [World.init]
    repeat' split
    all_goals rfl

set_option maxRecDepth 20000 in
/-- Witness for C2: two tests, `noop` and `copy`, under `LINUX_TIMING`
with pages of 4096 bytes. -/
theorem main_reports_in_order_witness :
    ∃ w, main .LINUX_TIMING 4096 (fun _ => false) (fun _ _ => 0)
        (fun k => ({ tv_sec := k, tv_nsec := 5 } : LINUX.benchmark_time))
        (registry [("noop", fun d s => (d, s)), ("copy", fun _ s => (s, s))])
        = some (w, 0) ∧
      report_lines w.stdout
        = ["noop: total time = 1000000000 nanoseconds",
           "copy: total time = 1000000000 nanoseconds"] ∧
      (report_lines w.stdout).length = 2 ∧
      (([("noop", fun d s => (d, s)), ("copy", fun _ s => (s, s))] :
          List (String × (List Nat → List Nat → List Nat × List Nat))) = [] → w.stdout = "") :=
  (main_reports_in_order .LINUX_TIMING 4096 (fun _ => false) (fun _ _ => 0)
    (fun k => ({ tv_sec := k, tv_nsec := 5 } : LINUX.benchmark_time))
    [("noop", fun d s => (d, s)), ("copy", fun _ s => (s, s))] (by decide) (by decide)).1

/-- C7 (as amended): `main` never calls `enable_count_register`: in every
timing model, for every table and whatever the allocator answers, a run
that returns holds no call of `enable_count_register` among its actions,
neither before the first `start_time` nor later; and when the allocation
of the two buffers succeeds the run of a table of named tests does return,
with exit code 0 and no such call. -/
theorem main_never_enables (m : timing_model) (PAGE_SIZE : Nat)
    (out_of_memory : Ptr → Bool) (garbage : Ptr → Nat → Nat) (clock : Nat → benchmark_time m)
    (tests : List test)
    (cases : List (String × (List Nat → List Nat → List Nat × List Nat)))
    (halloc : buffers_allocated PAGE_SIZE out_of_memory) :
    (∀ r, main m PAGE_SIZE out_of_memory garbage clock tests = some r →
      r.1.log.count Action.enable_count_register = 0) ∧
    ∃ w, main m PAGE_SIZE out_of_memory garbage clock (registry cases) = some (w, 0) ∧
      w.log.count Action.enable_count_register = 0 := by
  have general : ∀ (tests : List test) (r : World m × Int),
      main m PAGE_SIZE out_of_memory garbage clock tests = some r →
      r.1.log.count Action.enable_count_register = 0 := by
    intro tests r hr
    unfold main at hr
    simp only at hr
    split at hr
    · cases hr
    · rename_i w hw
      cases hr
      apply List.count_eq_zero_of_not_mem
      apply main_loop_no_enable PAGE_SIZE clock tests 0 _ w hw
      unfold posix_memalign
      simp only [World.init]
      repeat' split
      all_goals simp
  refine ⟨general tests, ?_⟩
  obtain ⟨w, hw, -, -⟩ :=
    main_registry m PAGE_SIZE out_of_memory garbage clock cases halloc
  exact ⟨w, hw, general _ _ hw⟩

set_option maxRecDepth 20000 in
/-- Witness for C7 (as amended): the one test `noop` under
`AARCH64_TIMING` with pages of 4096 bytes. -/
theorem main_never_enables_witness :
    ∃ w, main .AARCH64_TIMING 4096 (fun _ => false) (fun _ _ => 0) (fun k => (10 * k : Nat))
        (registry [("noop", fun d s => (d, s))]) = some (w, 0) ∧
      w.log.count Action.enable_count_register = 0 :=
  (main_never_enables .AARCH64_TIMING 4096 (fun _ => false) (fun _ _ => 0)
    (fun k => (10 * k : Nat)) [] [("noop", fun d s => (d, s))] (by decide)).2

set_option maxRecDepth 20000 in
/-- C7 (counterexample): in the run of the one test `noop` under
`AARCH64_TIMING` with pages of 4096 bytes allocated, the number of calls
of `enable_count_register` is 0, not 1, and the actions up to the first
`start_time` are the two allocations and the `memset`. -/
theorem main_enable_count_zero :
    (main .AARCH64_TIMING 4096 (fun _ => false) (fun _ _ => 0) (fun k => (10 * k : Nat))
        (registry [("noop", fun d s => (d, s))])).map
          (fun r => r.1.log.count Action.enable_count_register) = some 0 ∧
    (main .AARCH64_TIMING 4096 (fun _ => false) (fun _ _ => 0) (fun k => (10 * k : Nat))
        (registry [("noop", fun d s => (d, s))])).map
          (fun r => r.1.log.count Action.enable_count_register) ≠ some 1 ∧
    (main .AARCH64_TIMING 4096 (fun _ => false) (fun _ _ => 0) (fun k => (10 * k : Nat))
        (registry [("noop", fun d s => (d, s))])).map (fun r => r.1.log.take 4)
      = some [Action.posix_memalign .pagesrc 4096 4096, Action.posix_memalign .pagedst 4096 4096,
              Action.memset .pagesrc 0 4096, Action.start_time] := by
  refine ⟨by decide, by decide, by decide⟩

end CopyPageBenchmark
